import Mathlib

/-!
Shallow embedding of the `msig_court` ink! smart contract
(`src/contracts/msig_court/lib.rs`) of the liberland_substrate repository,
together with proofs about its proposal lifecycle: deterministic key
derivation, threshold-based approval collection, veto cancellation and
time-delayed execution.

Modelling conventions:
* `ink::storage::Mapping` becomes an association list (`AMap`) with
  `lookup` / `insert` / `remove` / `take`-style operations.
* Machine integers (`u32` block numbers, wasm32 `usize` lengths) become
  `Nat`; the source's `saturating_add` becomes `satAdd`, saturating at
  `2 ^ 32 - 1`.
* Environment inputs (caller, block number, the outcome of the external
  `llm_force_transfer` chain-extension call) are explicit arguments.
* Each contract message returns `(result, post-state, emitted events)`.
  Following the ink! execution model (and the spec's "call aborts, no
  state change" error contract), a message returning `Err` reverts all
  storage writes and events of the call; a trap (source `expect` panic)
  is modelled as `none`.
-/

namespace MsigCourtSpec

/-- Account identifiers, abstracted to naturals. -/
abbrev AccountId := Nat

/-- Block numbers; `BlockNumber` is `u32` in the contract environment. -/
abbrev BlockNumber := Nat

/-- Largest `u32` value; also the largest `usize` on the contract's wasm32 target. -/
def U32_MAX : Nat := 2 ^ 32 - 1

/-- Rust `saturating_add` on `u32` (and on wasm32 `usize`). -/
def satAdd (a b : Nat) : Nat := min (a + b) U32_MAX

/-- Payload of the `llm_force_transfer` chain-extension call
(`liberland_extension::LLMForceTransferArguments`, a type external to the
contract source); only its content identity matters to the contract. -/
structure LLMForceTransferArguments where
  fromAcc : AccountId
  toAcc : AccountId
  amount : Nat
  deriving DecidableEq, Repr

/-- Enum `Proposal` of the contract. -/
inductive Proposal where
  | LLMForceTransfer (args : LLMForceTransferArguments)
  | SetGovernance (threshold : Nat) (judges : List AccountId)
  deriving DecidableEq, Repr

/-- Enum `Error` of the contract. -/
inductive Error where
  | Unauthorized
  | AlreadyExists
  | NotFound
  | AlreadyApproved
  | CallFailed
  | InvalidParameters
  | StillInVetoPeriod
  | AlreadyVetoed
  | NotVetoAuthority
  deriving DecidableEq, Repr

instance {ε α : Type} [DecidableEq ε] [DecidableEq α] : DecidableEq (Except ε α) := fun a b =>
  match a, b with
  | .ok a1, .ok a2 =>
    if h : a1 = a2 then isTrue (by rw [h]) else isFalse (by intro hc; cases hc; exact h rfl)
  | .error e1, .error e2 =>
    if h : e1 = e2 then isTrue (by rw [h]) else isFalse (by intro hc; cases hc; exact h rfl)
  | .ok _, .error _ => isFalse (by intro hc; cases hc)
  | .error _, .ok _ => isFalse (by intro hc; cases hc)

/-- Enum `ProposalState` of the contract. -/
inductive ProposalState where
  | PendingApprovals
  | PendingVetoPeriod
  | Vetoed
  | Executed (result : Except Error Unit)
  deriving DecidableEq, Repr

/-- Modelled from the spec: `PropKey` is the Blake2x256 hash of the
proposal's canonical SCALE encoding, computed by the ink! environment,
which is outside the contract source.  The spec stipulates a
deterministic, content-addressed pure function of the proposal content;
it is modelled as the content itself. -/
abbrev PropKey := Proposal

/-- Modelled from the spec: deterministic, content-addressed key derivation
(`ink::env::hash_encoded::<Blake2x256, _>`). -/
def derive (p : Proposal) : PropKey := p

/-- Association-list model of `ink::storage::Mapping`. -/
abbrev AMap (κ α : Type) := List (κ × α)

namespace AMap

variable {κ α : Type} [DecidableEq κ]

/-- First value stored under a key, if any (`Mapping::get`). -/
def lookup (k : κ) : AMap κ α → Option α
  | [] => none
  | (k2, v) :: rest => if k2 = k then some v else lookup k rest

/-- Remove every entry under a key (`Mapping::remove`, also the removal
half of `Mapping::take`). -/
def remove (k : κ) : AMap κ α → AMap κ α
  | [] => []
  | (k2, v) :: rest => if k2 = k then remove k rest else (k2, v) :: remove k rest

/-- Store a value under a key, replacing any previous entry (`Mapping::insert`). -/
def insert (k : κ) (v : α) (m : AMap κ α) : AMap κ α :=
  (k, v) :: remove k m

/-- Membership test (`Mapping::contains`). -/
def contains (k : κ) (m : AMap κ α) : Bool := (lookup k m).isSome

theorem lookup_remove_self (k : κ) (m : AMap κ α) : lookup k (remove k m) = none := by
  induction m with
  | nil => rfl
  | cons e rest ih =>
    by_cases h : e.1 = k
    · simpa [remove, h] using ih
    · simpa [remove, lookup, h] using ih

theorem lookup_remove_ne {k k2 : κ} (m : AMap κ α) (h : k2 ≠ k) :
    lookup k (remove k2 m) = lookup k m := by
  induction m with
  | nil => rfl
  | cons e rest ih =>
    by_cases he : e.1 = k2
    · have hk : e.1 ≠ k := by rw [he]; exact h
      simp [remove, lookup, he, hk, ih, h]
    · by_cases hk : e.1 = k
      · simp [remove, lookup, he, hk, Ne.symm h]
      · simp [remove, lookup, he, hk, ih]

theorem lookup_insert_self (k : κ) (v : α) (m : AMap κ α) :
    lookup k (insert k v m) = some v := by
  simp [insert, lookup]

theorem lookup_insert_ne {k k2 : κ} (v : α) (m : AMap κ α) (h : k2 ≠ k) :
    lookup k (insert k2 v m) = lookup k m := by
  simp [insert, lookup, h, lookup_remove_ne m h]

end AMap

/-- Default veto period, in blocks (`DEFAULT_VETO_PERIOD`). -/
def DEFAULT_VETO_PERIOD : BlockNumber := 201600

/-- The contract storage (struct `MsigCourt`). -/
structure MsigCourt where
  threshold : Nat
  judges : List AccountId
  veto_authority : AccountId
  proposals : AMap PropKey Proposal
  approvals : AMap PropKey (List AccountId)
  pending_executions : AMap PropKey (Proposal × BlockNumber)
  vetoed : AMap PropKey Bool
  veto_period : BlockNumber
  deriving DecidableEq, Repr

/-- Events emitted by the contract, in emission order. -/
inductive Event where
  | Proposed (proposer : AccountId) (key : PropKey) (proposal : Proposal)
  | Approved (approver : AccountId) (key : PropKey)
  | Executed (approver : AccountId) (key : PropKey) (result : Except Error Unit)
  | PendingExecution (approver : AccountId) (key : PropKey) (execute_after : BlockNumber)
  | Vetoed (vetoer : AccountId) (key : PropKey)
  deriving DecidableEq, Repr

/-- Constructor `MsigCourt::new`; its `assert!(threshold as usize <= judges.len())`
guard is imposed as a hypothesis where a theorem needs it. -/
def MsigCourt.new (threshold : Nat) (judges : List AccountId) (veto_authority : AccountId) :
    MsigCourt :=
  { threshold := threshold, judges := judges, veto_authority := veto_authority,
    proposals := [], approvals := [], pending_executions := [], vetoed := [],
    veto_period := DEFAULT_VETO_PERIOD }

/-- Private helper `set_governance`: validates `threshold <= judges.len()`
and updates the governance fields, or rejects with `InvalidParameters`
leaving the state untouched. -/
def MsigCourt.set_governance (s : MsigCourt) (threshold : Nat) (judges : List AccountId) :
    Except Error Unit × MsigCourt :=
  if judges.length < threshold then (.error .InvalidParameters, s)
  else (.ok (), { s with threshold := threshold, judges := judges })

/-- Private helper `execute`: dispatch a proposal's effect.  The outcome of
the external `llm_force_transfer` chain-extension call is the input
`extOk`; any extension error collapses to `CallFailed`. -/
def MsigCourt.execute (s : MsigCourt) (extOk : Bool) (p : Proposal) :
    Except Error Unit × MsigCourt :=
  match p with
  | .LLMForceTransfer _ => (if extOk then .ok () else .error .CallFailed, s)
  | .SetGovernance threshold judges => s.set_governance threshold judges

/-- Private helper `do_approve`.  `Mapping::take` is modelled as lookup
followed by removal; the branch where the source panics (`expect` on a
missing proposal under an existing approval set) returns `none`. -/
def MsigCourt.do_approve (s : MsigCourt) (now : BlockNumber) (approver : AccountId)
    (key : PropKey) : Option (Except Error ProposalState × MsigCourt × List Event) :=
  match AMap.lookup key s.approvals with
  | none => some (.error .NotFound, s, [])
  | some approvers =>
    let s1 : MsigCourt := { s with approvals := AMap.remove key s.approvals }
    if approver ∈ approvers then
      some (.error .AlreadyApproved, s1, [])
    else if s.threshold ≤ satAdd approvers.length 1 then
      match AMap.lookup key s1.proposals with
      | none => none
      | some proposal =>
        let execute_after := satAdd now s.veto_period
        let s2 : MsigCourt := { s1 with
          proposals := AMap.remove key s1.proposals,
          pending_executions := AMap.insert key (proposal, execute_after) s1.pending_executions }
        some (.ok .PendingVetoPeriod, s2, [Event.PendingExecution approver key execute_after])
    else
      let s2 : MsigCourt := { s1 with
        approvals := AMap.insert key (approvers ++ [approver]) s1.approvals }
      some (.ok .PendingApprovals, s2, [Event.Approved approver key])

/-- Modelled from the spec and the ink! execution model: a message that
returns `Err` reverts every storage write and event of the call ("call
aborts, no state change"); this wrapper applies that message-boundary
semantics to a raw message body result. -/
def revertOnErr {α : Type} (s : MsigCourt)
    (r : Option (Except Error α × MsigCourt × List Event)) :
    Option (Except Error α × MsigCourt × List Event) :=
  match r with
  | none => none
  | some (.error e, _, _) => some (.error e, s, [])
  | some (.ok v, s2, evs) => some (.ok v, s2, evs)

/-- Raw body of message `propose`. -/
def MsigCourt.propose_raw (s : MsigCourt) (caller : AccountId) (now : BlockNumber)
    (p : Proposal) :
    Option (Except Error (PropKey × ProposalState) × MsigCourt × List Event) :=
  if caller ∈ s.judges then
    let key := derive p
    if AMap.contains key s.proposals then
      some (.error .AlreadyExists, s, [])
    else
      let s1 : MsigCourt := { s with
        proposals := AMap.insert key p s.proposals,
        approvals := AMap.insert key ([] : List AccountId) s.approvals }
      match s1.do_approve now caller key with
      | none => none
      | some (.error e, s2, evs) => some (.error e, s2, Event.Proposed caller key p :: evs)
      | some (.ok st, s2, evs) => some (.ok (key, st), s2, Event.Proposed caller key p :: evs)
  else some (.error .Unauthorized, s, [])

/-- Message `propose` with revert-on-error semantics at the call boundary. -/
def MsigCourt.propose (s : MsigCourt) (caller : AccountId) (now : BlockNumber) (p : Proposal) :
    Option (Except Error (PropKey × ProposalState) × MsigCourt × List Event) :=
  revertOnErr s (s.propose_raw caller now p)

/-- Raw body of message `approve`. -/
def MsigCourt.approve_raw (s : MsigCourt) (caller : AccountId) (now : BlockNumber)
    (key : PropKey) : Option (Except Error ProposalState × MsigCourt × List Event) :=
  if caller ∈ s.judges then s.do_approve now caller key
  else some (.error .Unauthorized, s, [])

/-- Message `approve` with revert-on-error semantics at the call boundary. -/
def MsigCourt.approve (s : MsigCourt) (caller : AccountId) (now : BlockNumber) (key : PropKey) :
    Option (Except Error ProposalState × MsigCourt × List Event) :=
  revertOnErr s (s.approve_raw caller now key)

/-- Message `get_threshold`. -/
def MsigCourt.get_threshold (s : MsigCourt) : Nat := s.threshold

/-- Message `get_judges`. -/
def MsigCourt.get_judges (s : MsigCourt) : List AccountId := s.judges

/-- Message `get_proposal`: some only when both the proposals table and the
approvals table hold the key. -/
def MsigCourt.get_proposal (s : MsigCourt) (key : PropKey) :
    Option (Proposal × List AccountId) :=
  match AMap.lookup key s.proposals, AMap.lookup key s.approvals with
  | some p, some l => some (p, l)
  | _, _ => none

/-- Message `get_veto_authority`. -/
def MsigCourt.get_veto_authority (s : MsigCourt) : AccountId := s.veto_authority

/-- Raw body of message `veto`. -/
def MsigCourt.veto_raw (s : MsigCourt) (caller : AccountId) (key : PropKey) :
    Except Error Unit × MsigCourt × List Event :=
  if caller ≠ s.veto_authority then (.error .NotVetoAuthority, s, [])
  else if (AMap.lookup key s.pending_executions).isNone then (.error .NotFound, s, [])
  else
    let s1 : MsigCourt := { s with
      pending_executions := AMap.remove key s.pending_executions,
      vetoed := AMap.insert key true s.vetoed }
    (.ok (), s1, [Event.Vetoed caller key])

/-- Message `veto` with revert-on-error semantics at the call boundary. -/
def MsigCourt.veto (s : MsigCourt) (caller : AccountId) (key : PropKey) :
    Except Error Unit × MsigCourt × List Event :=
  match s.veto_raw caller key with
  | (.error e, _, _) => (.error e, s, [])
  | r => r

/-- Raw body of message `execute_pending`. -/
def MsigCourt.execute_pending_raw (s : MsigCourt) (caller : AccountId) (now : BlockNumber)
    (extOk : Bool) (key : PropKey) :
    Except Error ProposalState × MsigCourt × List Event :=
  if (AMap.lookup key s.vetoed).getD false then (.error .AlreadyVetoed, s, [])
  else
    match AMap.lookup key s.pending_executions with
    | none => (.error .NotFound, s, [])
    | some (proposal, execute_after) =>
      if now < execute_after then (.error .StillInVetoPeriod, s, [])
      else
        let s1 : MsigCourt := { s with
          pending_executions := AMap.remove key s.pending_executions }
        let res := s1.execute extOk proposal
        (.ok (.Executed res.1), res.2, [Event.Executed caller key res.1])

/-- Message `execute_pending` with revert-on-error semantics at the call boundary. -/
def MsigCourt.execute_pending (s : MsigCourt) (caller : AccountId) (now : BlockNumber)
    (extOk : Bool) (key : PropKey) :
    Except Error ProposalState × MsigCourt × List Event :=
  match s.execute_pending_raw caller now extOk key with
  | (.error e, _, _) => (.error e, s, [])
  | r => r

/-- Post-state of a possibly-trapping message call: a trap leaves the
state unchanged. -/
def stepState {α : Type} (s : MsigCourt)
    (r : Option (Except Error α × MsigCourt × List Event)) : MsigCourt :=
  match r with
  | none => s
  | some (_, s2, _) => s2

/-- Result component of a possibly-trapping message call. -/
def stepResult {α : Type} (r : Option (Except Error α × MsigCourt × List Event)) :
    Option (Except Error α) :=
  r.map (fun t => t.1)

/-! ### Helper lemmas about the individual branches of the operations -/

theorem do_approve_crossing (s : MsigCourt) (now : BlockNumber) (approver : AccountId)
    (key : PropKey) (l : List AccountId) (p : Proposal)
    (hl : AMap.lookup key s.approvals = some l) (hm : approver ∉ l)
    (hp : AMap.lookup key s.proposals = some p)
    (hcross : s.threshold ≤ satAdd l.length 1) :
    s.do_approve now approver key =
      some (.ok .PendingVetoPeriod,
        { s with
          proposals := AMap.remove key s.proposals,
          approvals := AMap.remove key s.approvals,
          pending_executions :=
            AMap.insert key (p, satAdd now s.veto_period) s.pending_executions },
        [Event.PendingExecution approver key (satAdd now s.veto_period)]) := by
  unfold MsigCourt.do_approve
  simp [hl, hm, hcross, hp]

theorem do_approve_collecting (s : MsigCourt) (now : BlockNumber) (approver : AccountId)
    (key : PropKey) (l : List AccountId)
    (hl : AMap.lookup key s.approvals = some l) (hm : approver ∉ l)
    (hcross : satAdd l.length 1 < s.threshold) :
    s.do_approve now approver key =
      some (.ok .PendingApprovals,
        { s with approvals := AMap.insert key (l ++ [approver]) (AMap.remove key s.approvals) },
        [Event.Approved approver key]) := by
  unfold MsigCourt.do_approve
  simp [hl, hm, Nat.not_le.mpr hcross, AMap.insert]

theorem execute_frame (s : MsigCourt) (extOk : Bool) (p : Proposal) :
    (s.execute extOk p).2.proposals = s.proposals ∧
    (s.execute extOk p).2.approvals = s.approvals ∧
    (s.execute extOk p).2.pending_executions = s.pending_executions ∧
    (s.execute extOk p).2.vetoed = s.vetoed := by
  cases p with
  | LLMForceTransfer args => simp [MsigCourt.execute]
  | SetGovernance t j =>
    simp only [MsigCourt.execute, MsigCourt.set_governance]
    split <;> simp

theorem execute_pending_gate_open (s : MsigCourt) (caller : AccountId) (now : BlockNumber)
    (extOk : Bool) (key : PropKey) (p : Proposal) (ea : BlockNumber)
    (hv : (AMap.lookup key s.vetoed).getD false = false)
    (hp : AMap.lookup key s.pending_executions = some (p, ea))
    (hnow : ea ≤ now) :
    ∃ res s2,
      s.execute_pending caller now extOk key = (.ok (.Executed res), s2, [Event.Executed caller key res]) ∧
      s2.proposals = s.proposals ∧ s2.approvals = s.approvals ∧
      s2.pending_executions = AMap.remove key s.pending_executions ∧
      s2.vetoed = s.vetoed := by
  have hraw : s.execute_pending_raw caller now extOk key =
      (.ok (.Executed (MsigCourt.execute
          { s with pending_executions := AMap.remove key s.pending_executions } extOk p).1),
        (MsigCourt.execute
          { s with pending_executions := AMap.remove key s.pending_executions } extOk p).2,
        [Event.Executed caller key (MsigCourt.execute
          { s with pending_executions := AMap.remove key s.pending_executions } extOk p).1]) := by
    unfold MsigCourt.execute_pending_raw
    simp [hv, hp, Nat.not_lt.mpr hnow]
  obtain ⟨h1, h2, h3, h4⟩ :=
    execute_frame { s with pending_executions := AMap.remove key s.pending_executions } extOk p
  refine ⟨(MsigCourt.execute
      { s with pending_executions := AMap.remove key s.pending_executions } extOk p).1,
    (MsigCourt.execute
      { s with pending_executions := AMap.remove key s.pending_executions } extOk p).2,
    ?_, h1, h2, h3, h4⟩
  unfold MsigCourt.execute_pending
  rw [hraw]

/-! ### Claim theorems -/

/-- C1: for every contract state and every judge caller already contained in the
approval set of a key currently pending approvals, calling `approve` returns the
`AlreadyApproved` error and leaves the whole contract state unchanged (and emits
nothing); in particular the stored approval set for that key is the same before
and after the call. -/
theorem C1_double_approve_rejected (s : MsigCourt) (caller : AccountId) (now : BlockNumber)
    (key : PropKey) (l : List AccountId)
    (hj : caller ∈ s.judges)
    (hl : AMap.lookup key s.approvals = some l)
    (hm : caller ∈ l) :
    s.approve caller now key = some (.error .AlreadyApproved, s, []) ∧
    AMap.lookup key (stepState s (s.approve caller now key)).approvals =
      AMap.lookup key s.approvals := by
  have h : s.approve caller now key = some (.error .AlreadyApproved, s, []) := by
    unfold MsigCourt.approve MsigCourt.approve_raw MsigCourt.do_approve revertOnErr
    simp [hj, hl, hm]
  exact ⟨h, by rw [h]; rfl⟩

/-- Fixture for the C1 witness: threshold-3 court where judge 0 proposed
`SetGovernance 1 [0]` and is already the sole approver of its key. -/
def c1wS : MsigCourt :=
  { threshold := 3, judges := [0, 1, 2], veto_authority := 9,
    proposals := [(derive (.SetGovernance 1 [0]), .SetGovernance 1 [0])],
    approvals := [(derive (.SetGovernance 1 [0]), [0])],
    pending_executions := [], vetoed := [], veto_period := 100 }

/-- Witness for C1 at a concrete state. -/
theorem C1_witness :
    c1wS.approve 0 7 (derive (.SetGovernance 1 [0])) =
      some (.error .AlreadyApproved, c1wS, []) :=
  (C1_double_approve_rejected c1wS 0 7 (derive (.SetGovernance 1 [0])) [0]
    (by decide) (by decide) (by decide)).1

/-- C4: with stored approval set `l` for a pending key and a judge caller not yet
in it, the call leaves `PendingApprovals` exactly when the appended set reaches
the threshold — the crossing condition is `|l| + 1 ≥ threshold`
(greater-or-equal, so a threshold lowered mid-flight still triggers): the
crossing approval returns `PendingVetoPeriod` and removes the key from the
proposals and approvals tables in that same call while scheduling it at
`now + veto_period`, whereas a non-crossing approval returns `PendingApprovals`
and leaves the key pending with the caller appended. -/
theorem C4_threshold_boundary (s : MsigCourt) (caller : AccountId) (now : BlockNumber)
    (key : PropKey) (l : List AccountId) (p : Proposal)
    (hj : caller ∈ s.judges)
    (hl : AMap.lookup key s.approvals = some l)
    (hm : caller ∉ l)
    (hp : AMap.lookup key s.proposals = some p)
    (hlen : l.length + 1 ≤ U32_MAX) :
    (s.threshold ≤ l.length + 1 →
      ∃ s2, s.approve caller now key =
          some (.ok .PendingVetoPeriod, s2,
            [Event.PendingExecution caller key (satAdd now s.veto_period)]) ∧
        AMap.lookup key s2.proposals = none ∧
        AMap.lookup key s2.approvals = none ∧
        AMap.lookup key s2.pending_executions = some (p, satAdd now s.veto_period)) ∧
    (l.length + 1 < s.threshold →
      ∃ s2, s.approve caller now key =
          some (.ok .PendingApprovals, s2, [Event.Approved caller key]) ∧
        AMap.lookup key s2.proposals = some p ∧
        AMap.lookup key s2.approvals = some (l ++ [caller])) := by
  have hsat : satAdd l.length 1 = l.length + 1 := by
    unfold U32_MAX at hlen
    unfold satAdd U32_MAX
    omega
  constructor
  · intro hcross
    have hda := do_approve_crossing s now caller key l p hl hm hp (by rw [hsat]; exact hcross)
    refine ⟨{ s with
        proposals := AMap.remove key s.proposals,
        approvals := AMap.remove key s.approvals,
        pending_executions :=
          AMap.insert key (p, satAdd now s.veto_period) s.pending_executions },
      ?_, ?_, ?_, ?_⟩
    · simp [MsigCourt.approve, MsigCourt.approve_raw, hj, hda, revertOnErr]
    · exact AMap.lookup_remove_self key s.proposals
    · exact AMap.lookup_remove_self key s.approvals
    · exact AMap.lookup_insert_self key _ s.pending_executions
  · intro hncross
    have hda := do_approve_collecting s now caller key l hl hm (by rw [hsat]; exact hncross)
    refine ⟨{ s with
        approvals := AMap.insert key (l ++ [caller]) (AMap.remove key s.approvals) },
      ?_, ?_, ?_⟩
    · simp [MsigCourt.approve, MsigCourt.approve_raw, hj, hda, revertOnErr]
    · exact hp
    · exact AMap.lookup_insert_self key _ _

/-- Fixture for the C4 witness, crossing side: threshold 2, one approval stored. -/
def c4wCross : MsigCourt :=
  { threshold := 2, judges := [0, 1], veto_authority := 9,
    proposals := [(derive (.SetGovernance 1 [0]), .SetGovernance 1 [0])],
    approvals := [(derive (.SetGovernance 1 [0]), [0])],
    pending_executions := [], vetoed := [], veto_period := 100 }

/-- Fixture for the C4 witness, collecting side: threshold 3, one approval stored. -/
def c4wCollect : MsigCourt :=
  { threshold := 3, judges := [0, 1, 2], veto_authority := 9,
    proposals := [(derive (.SetGovernance 1 [0]), .SetGovernance 1 [0])],
    approvals := [(derive (.SetGovernance 1 [0]), [0])],
    pending_executions := [], vetoed := [], veto_period := 100 }

/-- Witness for C4 at concrete states, one instance per side of the boundary. -/
theorem C4_witness :
    (∃ s2, c4wCross.approve 1 0 (derive (.SetGovernance 1 [0])) =
        some (.ok .PendingVetoPeriod, s2,
          [Event.PendingExecution 1 (derive (.SetGovernance 1 [0]))
            (satAdd 0 c4wCross.veto_period)]) ∧
      AMap.lookup (derive (.SetGovernance 1 [0])) s2.proposals = none ∧
      AMap.lookup (derive (.SetGovernance 1 [0])) s2.approvals = none ∧
      AMap.lookup (derive (.SetGovernance 1 [0])) s2.pending_executions =
        some (.SetGovernance 1 [0], satAdd 0 c4wCross.veto_period)) ∧
    (∃ s2, c4wCollect.approve 1 0 (derive (.SetGovernance 1 [0])) =
        some (.ok .PendingApprovals, s2,
          [Event.Approved 1 (derive (.SetGovernance 1 [0]))]) ∧
      AMap.lookup (derive (.SetGovernance 1 [0])) s2.proposals =
        some (.SetGovernance 1 [0]) ∧
      AMap.lookup (derive (.SetGovernance 1 [0])) s2.approvals = some [0, 1]) :=
  ⟨(C4_threshold_boundary c4wCross 1 0 (derive (.SetGovernance 1 [0])) [0]
      (.SetGovernance 1 [0]) (by decide) (by decide) (by decide) (by decide)
      (by decide)).1 (by decide),
   (C4_threshold_boundary c4wCollect 1 0 (derive (.SetGovernance 1 [0])) [0]
      (.SetGovernance 1 [0]) (by decide) (by decide) (by decide) (by decide)
      (by decide)).2 (by decide)⟩

/-- C5: a `SetGovernance {threshold := t, judges := j}` proposal dispatched by
`execute_pending` validates `t ≤ |j|`: on violation the governance state
(threshold, judges) is left unchanged and the call returns
`Executed (error InvalidParameters)` as the recorded outcome — an `ok` call
result, not a call failure; otherwise the governance state becomes exactly
`(t, j)` and the call returns `Executed (ok)`.  Either way the pending entry is
consumed. -/
theorem C5_governance_dispatch (s : MsigCourt) (caller : AccountId) (now : BlockNumber)
    (extOk : Bool) (key : PropKey) (t : Nat) (j : List AccountId) (ea : BlockNumber)
    (hv : (AMap.lookup key s.vetoed).getD false = false)
    (hp : AMap.lookup key s.pending_executions = some (.SetGovernance t j, ea))
    (hnow : ea ≤ now) :
    (j.length < t →
      ∃ s2, s.execute_pending caller now extOk key =
          (.ok (.Executed (.error .InvalidParameters)), s2,
            [Event.Executed caller key (.error .InvalidParameters)]) ∧
        s2.threshold = s.threshold ∧ s2.judges = s.judges ∧
        AMap.lookup key s2.pending_executions = none) ∧
    (t ≤ j.length →
      ∃ s2, s.execute_pending caller now extOk key =
          (.ok (.Executed (.ok ())), s2, [Event.Executed caller key (.ok ())]) ∧
        s2.threshold = t ∧ s2.judges = j ∧
        AMap.lookup key s2.pending_executions = none) := by
  constructor
  · intro hinv
    have hraw : s.execute_pending_raw caller now extOk key =
        (.ok (.Executed (.error .InvalidParameters)),
          { s with pending_executions := AMap.remove key s.pending_executions },
          [Event.Executed caller key (.error .InvalidParameters)]) := by
      unfold MsigCourt.execute_pending_raw
      simp [hv, hp, Nat.not_lt.mpr hnow, MsigCourt.execute, MsigCourt.set_governance, hinv]
    refine ⟨{ s with pending_executions := AMap.remove key s.pending_executions },
      ?_, rfl, rfl, AMap.lookup_remove_self key s.pending_executions⟩
    unfold MsigCourt.execute_pending
    rw [hraw]
  · intro hval
    have hraw : s.execute_pending_raw caller now extOk key =
        (.ok (.Executed (.ok ())),
          { s with threshold := t, judges := j,
                   pending_executions := AMap.remove key s.pending_executions },
          [Event.Executed caller key (.ok ())]) := by
      unfold MsigCourt.execute_pending_raw
      simp [hv, hp, Nat.not_lt.mpr hnow, MsigCourt.execute, MsigCourt.set_governance,
        Nat.not_lt.mpr hval]
    refine ⟨{ s with
        threshold := t,
        judges := j,
        pending_executions := AMap.remove key s.pending_executions },
      ?_, rfl, rfl, AMap.lookup_remove_self key s.pending_executions⟩
    unfold MsigCourt.execute_pending
    rw [hraw]

/-- Fixture for the C5 witness, invalid side: a pending `SetGovernance 3 [0, 1]`. -/
def c5wInvalid : MsigCourt :=
  { threshold := 1, judges := [0], veto_authority := 9, proposals := [], approvals := [],
    pending_executions :=
      [(derive (.SetGovernance 3 [0, 1]), (.SetGovernance 3 [0, 1], 10))],
    vetoed := [], veto_period := 100 }

/-- Fixture for the C5 witness, valid side: a pending `SetGovernance 2 [0, 1]`. -/
def c5wValid : MsigCourt :=
  { threshold := 1, judges := [0], veto_authority := 9, proposals := [], approvals := [],
    pending_executions :=
      [(derive (.SetGovernance 2 [0, 1]), (.SetGovernance 2 [0, 1], 10))],
    vetoed := [], veto_period := 100 }

/-- Witness for C5 at concrete states, one instance per validation outcome. -/
theorem C5_witness :
    (∃ s2, c5wInvalid.execute_pending 4 10 true (derive (.SetGovernance 3 [0, 1])) =
        (.ok (.Executed (.error .InvalidParameters)), s2,
          [Event.Executed 4 (derive (.SetGovernance 3 [0, 1])) (.error .InvalidParameters)]) ∧
      s2.threshold = c5wInvalid.threshold ∧ s2.judges = c5wInvalid.judges ∧
      AMap.lookup (derive (.SetGovernance 3 [0, 1])) s2.pending_executions = none) ∧
    (∃ s2, c5wValid.execute_pending 4 10 true (derive (.SetGovernance 2 [0, 1])) =
        (.ok (.Executed (.ok ())), s2,
          [Event.Executed 4 (derive (.SetGovernance 2 [0, 1])) (.ok ())]) ∧
      s2.threshold = 2 ∧ s2.judges = [0, 1] ∧
      AMap.lookup (derive (.SetGovernance 2 [0, 1])) s2.pending_executions = none) :=
  ⟨(C5_governance_dispatch c5wInvalid 4 10 true (derive (.SetGovernance 3 [0, 1])) 3 [0, 1] 10
      (by decide) (by decide) (by decide)).1 (by decide),
   (C5_governance_dispatch c5wValid 4 10 true (derive (.SetGovernance 2 [0, 1])) 2 [0, 1] 10
      (by decide) (by decide) (by decide)).2 (by decide)⟩

/-- C6: for a key in the pending-executions table with recorded `execute_after`
and its vetoed flag unset, `execute_pending` returns `StillInVetoPeriod` and
changes nothing for every current height strictly below `execute_after`, and
dispatches (returns an `Executed` outcome) for every current height
greater than or equal to `execute_after`, not only at equality. -/
theorem C6_timing_gate (s : MsigCourt) (caller : AccountId) (extOk : Bool) (key : PropKey)
    (p : Proposal) (ea : BlockNumber)
    (hv : (AMap.lookup key s.vetoed).getD false = false)
    (hp : AMap.lookup key s.pending_executions = some (p, ea)) :
    (∀ now, now < ea →
      s.execute_pending caller now extOk key = (.error .StillInVetoPeriod, s, [])) ∧
    (∀ now, ea ≤ now → ∃ res s2,
      s.execute_pending caller now extOk key =
        (.ok (.Executed res), s2, [Event.Executed caller key res])) := by
  constructor
  · intro now hlt
    have hraw : s.execute_pending_raw caller now extOk key = (.error .StillInVetoPeriod, s, []) := by
      unfold MsigCourt.execute_pending_raw
      simp [hv, hp, hlt]
    unfold MsigCourt.execute_pending
    rw [hraw]
  · intro now hge
    obtain ⟨res, s2, heq, -, -, -, -⟩ :=
      execute_pending_gate_open s caller now extOk key p ea hv hp hge
    exact ⟨res, s2, heq⟩

/-- Fixture for the C6 witness: one pending proposal scheduled at height 50. -/
def c6wS : MsigCourt :=
  { threshold := 1, judges := [0], veto_authority := 9, proposals := [], approvals := [],
    pending_executions := [(derive (.SetGovernance 1 [0]), (.SetGovernance 1 [0], 50))],
    vetoed := [], veto_period := 100 }

/-- Witness for C6 at a concrete state, one height on each side of the gate. -/
theorem C6_witness :
    c6wS.execute_pending 4 49 true (derive (.SetGovernance 1 [0])) =
      (.error .StillInVetoPeriod, c6wS, []) ∧
    (∃ res s2, c6wS.execute_pending 4 50 true (derive (.SetGovernance 1 [0])) =
      (.ok (.Executed res), s2, [Event.Executed 4 (derive (.SetGovernance 1 [0])) res])) :=
  ⟨(C6_timing_gate c6wS 4 true (derive (.SetGovernance 1 [0])) (.SetGovernance 1 [0]) 50
      (by decide) (by decide)).1 49 (by decide),
   (C6_timing_gate c6wS 4 true (derive (.SetGovernance 1 [0])) (.SetGovernance 1 [0]) 50
      (by decide) (by decide)).2 50 (by decide)⟩

/-- C7 (amended): each pending-execution entry is dispatched at most once: a
passing `execute_pending` removes the key's scheduler entry and, whatever the
effect's outcome (its success flag `extOk` is universally quantified here, so
this covers a failing effect), any immediately following `execute_pending` on
that key returns `NotFound` and changes nothing, until a fresh
propose-and-approve cycle re-inserts the key; and once the height/veto gate
passes, `execute_pending` never returns an error — it always returns
`Executed (outcome)`, where only the recorded outcome can be a failure. -/
theorem C7_dispatch_consumes_entry (s : MsigCourt) (caller : AccountId) (now : BlockNumber)
    (extOk : Bool) (key : PropKey) (p : Proposal) (ea : BlockNumber)
    (hv : (AMap.lookup key s.vetoed).getD false = false)
    (hp : AMap.lookup key s.pending_executions = some (p, ea))
    (hnow : ea ≤ now) :
    ∃ res s2,
      s.execute_pending caller now extOk key =
        (.ok (.Executed res), s2, [Event.Executed caller key res]) ∧
      AMap.lookup key s2.pending_executions = none ∧
      ∀ caller2 now2 extOk2,
        s2.execute_pending caller2 now2 extOk2 key = (.error .NotFound, s2, []) := by
  obtain ⟨res, s2, heq, hpr, hap, hpe, hve⟩ :=
    execute_pending_gate_open s caller now extOk key p ea hv hp hnow
  have hnone : AMap.lookup key s2.pending_executions = none := by
    rw [hpe]
    exact AMap.lookup_remove_self key s.pending_executions
  have hv2 : (AMap.lookup key s2.vetoed).getD false = false := by rw [hve]; exact hv
  refine ⟨res, s2, heq, hnone, fun caller2 now2 extOk2 => ?_⟩
  have hraw2 : s2.execute_pending_raw caller2 now2 extOk2 key = (.error .NotFound, s2, []) := by
    unfold MsigCourt.execute_pending_raw
    simp [hv2, hnone]
  unfold MsigCourt.execute_pending
  rw [hraw2]

/-- Fixture for the C7 counterexample and witness: the valid proposal used throughout
the replay. -/
def c7xP : Proposal := .SetGovernance 1 [0]

/-- Fixture for the C7 counterexample: threshold-1 court with sole judge 0. -/
def c7xS0 : MsigCourt := MsigCourt.new 1 [0] 9

/-- Fixture for the C7 counterexample: after judge 0 proposed `c7xP` at height 0
(threshold 1, so the proposal immediately entered the veto period). -/
def c7xS1 : MsigCourt := stepState c7xS0 (c7xS0.propose 0 0 c7xP)

/-- Fixture for the C7 counterexample: after the first dispatch at height 201600. -/
def c7xS2 : MsigCourt := (c7xS1.execute_pending 3 201600 true (derive c7xP)).2.1

/-- Fixture for the C7 counterexample: after judge 0 re-proposed the identical
content, which re-entered the veto period under the same content-derived key. -/
def c7xS3 : MsigCourt := stepState c7xS2 (c7xS2.propose 0 201600 c7xP)

/-- Counterexample to C7 as stated: the effect of key `derive c7xP` is dispatched
twice across this sequence of calls — propose, execute, re-propose the identical
content (same key), execute again — so "dispatched at most once across any
sequence of calls" fails for this key. -/
theorem C7_counterexample :
    (c7xS1.execute_pending 3 201600 true (derive c7xP)).1 = .ok (.Executed (.ok ())) ∧
    stepResult (c7xS2.propose 0 201600 c7xP) = some (.ok (derive c7xP, .PendingVetoPeriod)) ∧
    (c7xS3.execute_pending 4 403200 true (derive c7xP)).1 = .ok (.Executed (.ok ())) := by
  decide

/-- Fixture for the C7 witness: one pending proposal scheduled at height 50. -/
def c7wS : MsigCourt :=
  { threshold := 1, judges := [0], veto_authority := 9, proposals := [], approvals := [],
    pending_executions := [(derive c7xP, (c7xP, 50))], vetoed := [], veto_period := 100 }

/-- Witness for the amended C7 at a concrete state. -/
theorem C7_witness :
    ∃ res s2, c7wS.execute_pending 4 60 true (derive c7xP) =
        (.ok (.Executed res), s2, [Event.Executed 4 (derive c7xP) res]) ∧
      AMap.lookup (derive c7xP) s2.pending_executions = none ∧
      ∀ caller2 now2 extOk2,
        s2.execute_pending caller2 now2 extOk2 (derive c7xP) = (.error .NotFound, s2, []) :=
  C7_dispatch_consumes_entry c7wS 4 60 true (derive c7xP) c7xP 50
    (by decide) (by decide) (by decide)

/-- C8: key derivation is deterministic and content-addressed — identical
proposal content always yields the identical key — and consequently a second
`propose` by a judge of a proposal whose content-derived key is still in the
proposals table fails with `AlreadyExists` and changes nothing. -/
theorem C8_content_addressed_dedup (s : MsigCourt) (caller : AccountId) (now : BlockNumber)
    (p q : Proposal)
    (hj : caller ∈ s.judges)
    (hp : AMap.lookup (derive p) s.proposals = some q) :
    (∀ p1 p2 : Proposal, p1 = p2 → derive p1 = derive p2) ∧
    s.propose caller now p = some (.error .AlreadyExists, s, []) := by
  refine ⟨fun p1 p2 h => by rw [h], ?_⟩
  unfold MsigCourt.propose MsigCourt.propose_raw revertOnErr
  simp [hj, AMap.contains, hp]

/-- Witness for C8 at a concrete state. -/
theorem C8_witness :
    derive (.SetGovernance 1 [0]) = derive (.SetGovernance 1 [0]) ∧
    c1wS.propose 1 7 (.SetGovernance 1 [0]) = some (.error .AlreadyExists, c1wS, []) :=
  ⟨(C8_content_addressed_dedup c1wS 1 7 (.SetGovernance 1 [0]) (.SetGovernance 1 [0])
      (by decide) (by decide)).1 _ _ rfl,
   (C8_content_addressed_dedup c1wS 1 7 (.SetGovernance 1 [0]) (.SetGovernance 1 [0])
      (by decide) (by decide)).2⟩

/-- C9: event order within a single `propose` call: a propose whose implicit
self-approval immediately crosses the threshold (threshold at most 1, measured
against the fresh one-element approval set) emits `Proposed` first and
`PendingExecution` second — never the reverse — in that same call, while a
propose that does not cross emits `Proposed` then `Approved`; one event per
state transition. -/
theorem C9_propose_event_order (s : MsigCourt) (caller : AccountId) (now : BlockNumber)
    (p : Proposal)
    (hj : caller ∈ s.judges)
    (hnew : AMap.lookup (derive p) s.proposals = none) :
    (s.threshold ≤ 1 →
      ∃ s2, s.propose caller now p =
        some (.ok (derive p, .PendingVetoPeriod), s2,
          [Event.Proposed caller (derive p) p,
           Event.PendingExecution caller (derive p) (satAdd now s.veto_period)])) ∧
    (2 ≤ s.threshold →
      ∃ s2, s.propose caller now p =
        some (.ok (derive p, .PendingApprovals), s2,
          [Event.Proposed caller (derive p) p, Event.Approved caller (derive p)])) := by
  have hsat01 : satAdd 0 1 = 1 := by decide
  constructor
  · intro hth
    have hda := do_approve_crossing
      { s with proposals := AMap.insert (derive p) p s.proposals,
               approvals := AMap.insert (derive p) ([] : List AccountId) s.approvals }
      now caller (derive p) [] p
      (AMap.lookup_insert_self _ _ _) (by simp) (AMap.lookup_insert_self _ _ _)
      (by show s.threshold ≤ satAdd 0 1; rw [hsat01]; exact hth)
    refine ⟨{ s with
        proposals := AMap.remove (derive p) (AMap.insert (derive p) p s.proposals),
        approvals :=
          AMap.remove (derive p) (AMap.insert (derive p) ([] : List AccountId) s.approvals),
        pending_executions :=
          AMap.insert (derive p) (p, satAdd now s.veto_period) s.pending_executions },
      ?_⟩
    unfold MsigCourt.propose MsigCourt.propose_raw revertOnErr
    simp [hj, AMap.contains, hnew, hda]
  · intro hth
    have hda := do_approve_collecting
      { s with proposals := AMap.insert (derive p) p s.proposals,
               approvals := AMap.insert (derive p) ([] : List AccountId) s.approvals }
      now caller (derive p) []
      (AMap.lookup_insert_self _ _ _) (by simp)
      (by show satAdd 0 1 < s.threshold; rw [hsat01]; omega)
    refine ⟨{ s with
        proposals := AMap.insert (derive p) p s.proposals,
        approvals := AMap.insert (derive p) [caller]
          (AMap.remove (derive p)
            (AMap.insert (derive p) ([] : List AccountId) s.approvals)) },
      ?_⟩
    unfold MsigCourt.propose MsigCourt.propose_raw revertOnErr
    simp [hj, AMap.contains, hnew, hda]

/-- Fixture for the C9 witness, crossing side: empty threshold-1 court. -/
def c9wCross : MsigCourt := MsigCourt.new 1 [0] 9

/-- Fixture for the C9 witness, collecting side: empty threshold-2 court. -/
def c9wCollect : MsigCourt := MsigCourt.new 2 [0, 1] 9

/-- Witness for C9 at concrete states, one instance per branch. -/
theorem C9_witness :
    (∃ s2, c9wCross.propose 0 3 (.SetGovernance 1 [0]) =
      some (.ok (derive (.SetGovernance 1 [0]), .PendingVetoPeriod), s2,
        [Event.Proposed 0 (derive (.SetGovernance 1 [0])) (.SetGovernance 1 [0]),
         Event.PendingExecution 0 (derive (.SetGovernance 1 [0]))
           (satAdd 3 c9wCross.veto_period)])) ∧
    (∃ s2, c9wCollect.propose 0 3 (.SetGovernance 1 [0]) =
      some (.ok (derive (.SetGovernance 1 [0]), .PendingApprovals), s2,
        [Event.Proposed 0 (derive (.SetGovernance 1 [0])) (.SetGovernance 1 [0]),
         Event.Approved 0 (derive (.SetGovernance 1 [0]))])) :=
  ⟨(C9_propose_event_order c9wCross 0 3 (.SetGovernance 1 [0]) (by decide) (by decide)).1
      (by decide),
   (C9_propose_event_order c9wCollect 0 3 (.SetGovernance 1 [0]) (by decide) (by decide)).2
      (by decide)⟩

/-- C10 (amended): `get_proposal` returns `some` exactly while both the
proposals table and the approvals table hold the key; a threshold-crossing
approval removes both entries in that same call, after which `get_proposal` is
`none`, the approval set — including the identity of the final,
threshold-crossing approver, which is never appended — is no longer stored
anywhere, and the scheduler entry keeps only the proposal and its height; and
`veto` and `execute_pending` never write the proposals or approvals tables.
The original claim's universal ("for every key that has crossed the threshold
... get_proposal returns None and the approval set is no longer retained") is
refuted by the counterexample below: a later `propose` of identical content
re-creates both entries under the same key while it still awaits its veto
period. -/
theorem C10_get_proposal_window (s : MsigCourt) :
    (∀ key p l, s.get_proposal key = some (p, l) ↔
      (AMap.lookup key s.proposals = some p ∧ AMap.lookup key s.approvals = some l)) ∧
    (∀ caller now key l p, caller ∈ s.judges →
      AMap.lookup key s.approvals = some l → caller ∉ l →
      AMap.lookup key s.proposals = some p →
      s.threshold ≤ satAdd l.length 1 →
      ∃ s2, s.approve caller now key =
          some (.ok .PendingVetoPeriod, s2,
            [Event.PendingExecution caller key (satAdd now s.veto_period)]) ∧
        s2.get_proposal key = none ∧
        AMap.lookup key s2.approvals = none ∧
        AMap.lookup key s2.pending_executions = some (p, satAdd now s.veto_period)) ∧
    (∀ caller key, (s.veto caller key).2.1.proposals = s.proposals ∧
      (s.veto caller key).2.1.approvals = s.approvals) ∧
    (∀ caller now extOk key,
      (s.execute_pending caller now extOk key).2.1.proposals = s.proposals ∧
      (s.execute_pending caller now extOk key).2.1.approvals = s.approvals) := by
  refine ⟨?_, ?_, ?_, ?_⟩
  · intro key p l
    cases h1 : AMap.lookup key s.proposals <;> cases h2 : AMap.lookup key s.approvals <;>
      simp [MsigCourt.get_proposal, h1, h2]
  · intro caller now key l p hj hl hm hp hcross
    have hda := do_approve_crossing s now caller key l p hl hm hp hcross
    refine ⟨{ s with
        proposals := AMap.remove key s.proposals,
        approvals := AMap.remove key s.approvals,
        pending_executions :=
          AMap.insert key (p, satAdd now s.veto_period) s.pending_executions },
      ?_, ?_, ?_, ?_⟩
    · simp [MsigCourt.approve, MsigCourt.approve_raw, hj, hda, revertOnErr]
    · simp [MsigCourt.get_proposal, AMap.lookup_remove_self]
    · exact AMap.lookup_remove_self key s.approvals
    · exact AMap.lookup_insert_self key _ s.pending_executions
  · intro caller key
    unfold MsigCourt.veto MsigCourt.veto_raw
    by_cases h1 : caller ≠ s.veto_authority
    · simp [h1]
    · by_cases h2 : (AMap.lookup key s.pending_executions).isNone
      · simp [h1, h2]
      · simp [h1, h2]
  · intro caller now extOk key
    unfold MsigCourt.execute_pending MsigCourt.execute_pending_raw
    by_cases h1 : (AMap.lookup key s.vetoed).getD false
    · simp [h1]
    · cases h2 : AMap.lookup key s.pending_executions with
      | none => simp [h1, h2]
      | some pe =>
        obtain ⟨pp, ea⟩ := pe
        by_cases h3 : now < ea
        · simp [h1, h2, h3]
        · obtain ⟨e1, e2, -, -⟩ := execute_frame
            { s with pending_executions := AMap.remove key s.pending_executions } extOk pp
          simp [h1, h2, h3, e1, e2]

/-- Witness for C10 at a concrete state, instantiating all four parts. -/
theorem C10_witness :
    (c4wCross.get_proposal (derive (.SetGovernance 1 [0])) =
        some (.SetGovernance 1 [0], [0]) ↔
      (AMap.lookup (derive (.SetGovernance 1 [0])) c4wCross.proposals =
          some (.SetGovernance 1 [0]) ∧
       AMap.lookup (derive (.SetGovernance 1 [0])) c4wCross.approvals = some [0])) ∧
    (∃ s2, c4wCross.approve 1 0 (derive (.SetGovernance 1 [0])) =
        some (.ok .PendingVetoPeriod, s2,
          [Event.PendingExecution 1 (derive (.SetGovernance 1 [0]))
            (satAdd 0 c4wCross.veto_period)]) ∧
      s2.get_proposal (derive (.SetGovernance 1 [0])) = none ∧
      AMap.lookup (derive (.SetGovernance 1 [0])) s2.approvals = none ∧
      AMap.lookup (derive (.SetGovernance 1 [0])) s2.pending_executions =
        some (.SetGovernance 1 [0], satAdd 0 c4wCross.veto_period)) ∧
    ((c4wCross.veto 9 (derive (.SetGovernance 1 [0]))).2.1.proposals =
        c4wCross.proposals ∧
     (c4wCross.veto 9 (derive (.SetGovernance 1 [0]))).2.1.approvals =
        c4wCross.approvals) ∧
    ((c4wCross.execute_pending 5 99 true (derive (.SetGovernance 1 [0]))).2.1.proposals =
        c4wCross.proposals ∧
     (c4wCross.execute_pending 5 99 true (derive (.SetGovernance 1 [0]))).2.1.approvals =
        c4wCross.approvals) :=
  ⟨(C10_get_proposal_window c4wCross).1 (derive (.SetGovernance 1 [0]))
      (.SetGovernance 1 [0]) [0],
   (C10_get_proposal_window c4wCross).2.1 1 0 (derive (.SetGovernance 1 [0])) [0]
      (.SetGovernance 1 [0]) (by decide) (by decide) (by decide) (by decide) (by decide),
   (C10_get_proposal_window c4wCross).2.2.1 9 (derive (.SetGovernance 1 [0])),
   (C10_get_proposal_window c4wCross).2.2.2 5 99 true (derive (.SetGovernance 1 [0]))⟩

/-- Fixture for the C2 evaluation: the proposal content re-used for the duplicate
propose. -/
def c2xP : Proposal := .SetGovernance 1 [0]

/-- Fixture for the C2 evaluation: fresh threshold-2 court with judges 0 and 1. -/
def c2xS0 : MsigCourt := MsigCourt.new 2 [0, 1] 9

/-- Fixture for the C2 evaluation: after judge 0 proposed `c2xP` at height 0. -/
def c2xS1 : MsigCourt := stepState c2xS0 (c2xS0.propose 0 0 c2xP)

/-- Fixture for the C2 evaluation: after judge 1's approval crossed the threshold,
moving the key into the pending-executions table. -/
def c2xS2 : MsigCourt := stepState c2xS1 (c2xS1.approve 1 0 (derive c2xP))

/-- Fixture for the C2 evaluation: after judge 0 re-proposed the identical content
while the key was awaiting its veto period. -/
def c2xS3 : MsigCourt := stepState c2xS2 (c2xS2.propose 0 5 c2xP)

/-- Evaluation of the code at the input violating C2: `propose` checks only the
proposals table for `AlreadyExists`, so re-proposing content whose key sits in
the pending-executions table succeeds and leaves the key present in the
proposals table and the pending-executions table simultaneously. -/
theorem C2_failing_input_eval :
    stepResult (c2xS2.propose 0 5 c2xP) = some (.ok (derive c2xP, .PendingApprovals)) ∧
    AMap.contains (derive c2xP) c2xS3.proposals = true ∧
    AMap.contains (derive c2xP) c2xS3.pending_executions = true := by decide

/-- Fixture for the C3 evaluation: the proposal content re-used after the veto. -/
def c3xP : Proposal := .SetGovernance 1 [0]

/-- Fixture for the C3 evaluation: fresh threshold-1 court, judge 0, veto authority 9. -/
def c3xS0 : MsigCourt := MsigCourt.new 1 [0] 9

/-- Fixture for the C3 evaluation: after judge 0 proposed `c3xP`, which immediately
entered the veto period. -/
def c3xS1 : MsigCourt := stepState c3xS0 (c3xS0.propose 0 0 c3xP)

/-- Fixture for the C3 evaluation: after the veto authority vetoed the key. -/
def c3xS2 : MsigCourt := (c3xS1.veto 9 (derive c3xP)).2.1

/-- Fixture for the C3 evaluation: after judge 0 re-proposed the identical content
of the vetoed key. -/
def c3xS3 : MsigCourt := stepState c3xS2 (c3xS2.propose 0 1 c3xP)

/-- Evaluation of the code at the input violating C3: after a successful veto sets
the key's vetoed flag and clears its scheduler entry, re-proposing the identical
content succeeds and re-inserts the very same key into the pending-executions
table — the vetoed key re-enters the scheduler. -/
theorem C3_failing_input_eval :
    AMap.lookup (derive c3xP) c3xS2.vetoed = some true ∧
    AMap.lookup (derive c3xP) c3xS2.pending_executions = none ∧
    AMap.lookup (derive c3xP) c3xS3.vetoed = some true ∧
    AMap.contains (derive c3xP) c3xS3.pending_executions = true := by decide

/-- Counterexample to C10 as stated: in state `c2xS3` — reached by propose,
threshold-crossing approval, and a re-propose of the identical content — the
key has crossed the threshold and sits in the pending-executions table awaiting
its veto period, yet `get_proposal` returns `some` and an approval set for the
key is back in storage, refuting "for every key that has crossed the threshold
get_proposal returns None and the approval set is no longer retained anywhere
in storage". -/
theorem C10_counterexample :
    AMap.contains (derive c2xP) c2xS3.pending_executions = true ∧
    c2xS3.get_proposal (derive c2xP) = some (c2xP, [0]) ∧
    AMap.lookup (derive c2xP) c2xS3.approvals = some [0] := by decide

end MsigCourtSpec
